import Mathlib

/-!
# Verification of darktable `src/views/view.c`

A shallow embedding of the view manager of darktable's `src/views/view.c`:
the input-event dispatch chain (`dt_view_manager_mouse_moved`,
`dt_view_manager_button_pressed`, `dt_view_manager_button_released`), the
view-switch state machine (`dt_view_manager_switch_by_view`), the view
registry ordering (`sort_views`), the overlay hit-test engine
(`dt_view_process_image_over`, `dt_view_guess_image_over`), the
active-images set (`dt_view_active_images_reset`) and the image-to-act-on
resolution (`dt_view_get_image_to_act_on`).

External collaborators (GTK, SQLite, the signal bus, the configuration
store) are modelled as explicit parameters; hook invocations on views and
overlay (lib) modules are recorded in an event trace.
-/

namespace DTView

/-- Observable events of the view manager: lifecycle-hook and
input-handler invocations on views and overlay (lib) modules, plus the
signals the manager raises.  Each constructor records the identity of the
view (`vid`) or plugin (`pid`) whose hook was invoked. -/
inductive Event where
  | leave (vid : Nat)
  | enter (vid : Nat)
  | tryEnter (vid : Nat)
  | pluginViewLeave (pid : Nat)
  | pluginViewEnter (pid : Nat)
  | pluginGuiCleanup (pid : Nat)
  | pluginAttach (pid : Nat)
  | pluginMoved (pid : Nat)
  | pluginPressed (pid : Nat)
  | pluginReleased (pid : Nat)
  | viewMoved
  | viewPressed
  | viewReleased
  | signalViewChanged
deriving DecidableEq, Repr

/-- An overlay (lib) module as seen by the input dispatchers of `view.c`:
`visible` is the value of `dt_lib_is_visible_in_view(plugin, v)` for the
current view, `hasX`/`xRet` model the optional handler slot `plugin->X`
(present or `NULL`) and the boolean it returns when invoked. -/
structure LibModule where
  pid : Nat
  visible : Bool
  hasMouseMoved : Bool
  mouseMovedRet : Bool
  hasButtonPressed : Bool
  buttonPressedRet : Bool
  hasButtonReleased : Bool
  buttonReleasedRet : Bool
deriving DecidableEq, Repr

/-- The current view's optional input handlers (`v->mouse_moved`,
`v->button_pressed`, `v->button_released`) and the values they return.
`button_pressed` returns an `int` in C; `mouse_moved` returns `void` and
`button_released`'s return value is modelled because the dispatcher's
contract mentions it. -/
structure ViewHandlers where
  hasMouseMoved : Bool
  hasButtonPressed : Bool
  buttonPressedRet : Int
  hasButtonReleased : Bool
  buttonReleasedRet : Int
deriving DecidableEq, Repr

/-- A module is consulted by `dt_view_manager_mouse_moved` iff it has a
`mouse_moved` handler and is visible in the current view
(`plugin->mouse_moved && dt_lib_is_visible_in_view(plugin, v)`). -/
def invokedMoved (p : LibModule) : Bool := p.hasMouseMoved && p.visible

/-- A module claims a mouse-move iff it is consulted and its handler
returns true. -/
def claimsMoved (p : LibModule) : Bool := invokedMoved p && p.mouseMovedRet

/-- A module is consulted by `dt_view_manager_button_pressed` iff it has a
`button_pressed` handler and is visible in the current view. -/
def invokedPressed (p : LibModule) : Bool := p.hasButtonPressed && p.visible

/-- A module claims a button-press iff it is consulted and its handler
returns true. -/
def claimsPressed (p : LibModule) : Bool := invokedPressed p && p.buttonPressedRet

/-- A module is consulted by `dt_view_manager_button_released` iff it has
a `button_released` handler and is visible in the current view. -/
def invokedReleased (p : LibModule) : Bool := p.hasButtonReleased && p.visible

/-- A module claims a button-release iff it is consulted and its handler
returns true. -/
def claimsReleased (p : LibModule) : Bool := invokedReleased p && p.buttonReleasedRet

/-- The plugin loop of `dt_view_manager_mouse_moved` (view.c:568-579),
applied to the traversal sequence (the source walks `darktable.lib->plugins`
from `g_list_last` via `g_list_previous`, i.e. in reverse list order; the
caller passes the reversed list).  Returns the final `handled` flag and the
trace of plugin-handler invocations, in invocation order. -/
def mouseMovedChain : List LibModule → Bool × List Event
  | [] => (false, [])
  | p :: rest =>
    if invokedMoved p then
      let r := mouseMovedChain rest
      (p.mouseMovedRet || r.1, Event.pluginMoved p.pid :: r.2)
    else mouseMovedChain rest

/-- `dt_view_manager_mouse_moved` (view.c:561-583): with no current view
the dispatch is a no-op; otherwise every plugin in the traversal is
consulted (the loop never exits early) and the view's own `mouse_moved`
runs only when no plugin returned true.  The function returns `void` in C,
so the model returns only the event trace. -/
def dt_view_manager_mouse_moved (cur : Option ViewHandlers) (plugins : List LibModule) :
    List Event :=
  match cur with
  | none => []
  | some v =>
    let r := mouseMovedChain plugins.reverse
    r.2 ++ (if !r.1 && v.hasMouseMoved then [Event.viewMoved] else [])

/-- The plugin loop of `dt_view_manager_button_pressed` (view.c:621-632):
the loop condition is `while(plugins && !handled)`, so traversal stops
right after the first plugin whose handler returns true. -/
def buttonPressedChain : List LibModule → Bool × List Event
  | [] => (false, [])
  | p :: rest =>
    if invokedPressed p then
      if p.buttonPressedRet then (true, [Event.pluginPressed p.pid])
      else
        let r := buttonPressedChain rest
        (r.1, Event.pluginPressed p.pid :: r.2)
    else buttonPressedChain rest

/-- `dt_view_manager_button_pressed` (view.c:613-640): returns 1 when a
plugin handled the press; otherwise the view's own `button_pressed` is
invoked and its result returned; 0 when the view has no handler. -/
def dt_view_manager_button_pressed (cur : Option ViewHandlers) (plugins : List LibModule) :
    Int × List Event :=
  match cur with
  | none => (0, [])
  | some v =>
    let r := buttonPressedChain plugins.reverse
    if r.1 then (1, r.2)
    else if v.hasButtonPressed then (v.buttonPressedRet, r.2 ++ [Event.viewPressed])
    else (0, r.2)

/-- The plugin loop of `dt_view_manager_button_released` (view.c:592-603):
the loop condition is `while(plugins)` — unlike the button-press loop it
does NOT stop once `handled` is set, so every consulted plugin's handler
runs. -/
def buttonReleasedChain : List LibModule → Bool × List Event
  | [] => (false, [])
  | p :: rest =>
    if invokedReleased p then
      let r := buttonReleasedChain rest
      (p.buttonReleasedRet || r.1, Event.pluginReleased p.pid :: r.2)
    else buttonReleasedChain rest

/-- `dt_view_manager_button_released` (view.c:585-611): returns 1 when a
plugin handled the release; otherwise the view's own `button_released` is
invoked but its result is discarded and the dispatcher returns 0. -/
def dt_view_manager_button_released (cur : Option ViewHandlers) (plugins : List LibModule) :
    Int × List Event :=
  match cur with
  | none => (0, [])
  | some v =>
    let r := buttonReleasedChain plugins.reverse
    if r.1 then (1, r.2)
    else if v.hasButtonReleased then (0, r.2 ++ [Event.viewReleased])
    else (0, r.2)

/-- A view as seen by `dt_view_manager_switch_by_view`: its identity and
the optional lifecycle slots the switch protocol consults (`v->leave`,
`v->enter`, `v->try_enter` with the value the guard returns, and
`v->connect_key_accels`). -/
structure SwitchView where
  vid : Nat
  hasLeave : Bool
  hasEnter : Bool
  hasTryEnter : Bool
  tryEnterRet : Int
deriving DecidableEq, Repr

/-- An overlay (lib) module as seen by the switch protocol: its identity,
the set of view identities it is visible in (the extension of
`dt_lib_is_visible_in_view`), and the presence of its optional
`view_leave` / `view_enter` hooks. -/
structure SwitchPlugin where
  pid : Nat
  visibleVids : List Nat
  hasViewLeave : Bool
  hasViewEnter : Bool
deriving DecidableEq, Repr

/-- `dt_lib_is_visible_in_view(plugin, v)` (external predicate), modelled
by membership of the view's identity in the plugin's visibility set. -/
def SwitchPlugin.visibleIn (p : SwitchPlugin) (v : SwitchView) : Bool :=
  p.visibleVids.contains v.vid

/-- `dt_view_manager_switch_by_view` (view.c:284-470).  State is the
current-view pointer `vm->current_view`; the result is the returned error
code, the new current view, and the trace of hook invocations.  GTK/accel
/config/undo side effects on external collaborators are not part of the
state; hook presence tests (`if(old_view->leave)` etc.) are explicit.

Switching to none (view.c:307-340): leave the old view, then for every
plugin visible in it invoke `view_leave` (if present) and `gui_cleanup`;
the current view becomes `NULL` and the function returns 0.

Otherwise (view.c:345-469): `try_enter` may abort with its nonzero result
and the current view untouched; else the old view (if any) is left and its
visible plugins get `view_leave`, the current view becomes the new view,
plugins visible in the new view are attached in reverse list order, then
in forward list order get `view_enter` (if present), the new view's
`enter` runs, and `DT_SIGNAL_VIEWMANAGER_VIEW_CHANGED` is raised. -/
def dt_view_manager_switch_by_view (cur : Option SwitchView) (plugins : List SwitchPlugin)
    (nv : Option SwitchView) : Int × Option SwitchView × List Event :=
  match nv with
  | none =>
    let evs :=
      match cur with
      | some old =>
        (if old.hasLeave then [Event.leave old.vid] else []) ++
        plugins.flatMap (fun p =>
          if p.visibleIn old then
            (if p.hasViewLeave then [Event.pluginViewLeave p.pid] else []) ++
            [Event.pluginGuiCleanup p.pid]
          else [])
      | none => []
    (0, none, evs)
  | some newView =>
    let guardEvs := if newView.hasTryEnter then [Event.tryEnter newView.vid] else []
    if newView.hasTryEnter && newView.tryEnterRet ≠ 0 then
      (newView.tryEnterRet, cur, guardEvs)
    else
      let oldEvs :=
        match cur with
        | some old =>
          (if old.hasLeave then [Event.leave old.vid] else []) ++
          plugins.flatMap (fun p =>
            if p.visibleIn old && p.hasViewLeave then [Event.pluginViewLeave p.pid] else [])
        | none => []
      let attachEvs := plugins.reverse.flatMap (fun p =>
        if p.visibleIn newView then [Event.pluginAttach p.pid] else [])
      let pluginEnterEvs := plugins.flatMap (fun p =>
        if p.visibleIn newView && p.hasViewEnter then [Event.pluginViewEnter p.pid] else [])
      let enterEvs := if newView.hasEnter then [Event.enter newView.vid] else []
      (0, some newView,
        guardEvs ++ oldEvs ++ attachEvs ++ pluginEnterEvs ++ enterEvs ++
          [Event.signalViewChanged])

/-- `dt_view_get_image_to_act_on` (view.c:897-938).  `mouseover` is the
value of `dt_control_get_mouse_over_id()`; `active_images` is
`darktable.view_manager->active_images` (a GSList of image ids);
`sel_first` models the first row of the SQL query over
`main.selected_images` joined with `memory.collected_images` (external
database state).  The source checks the mouse-over id first, then the
active-images list, then the persisted selection, and returns -1 when all
are empty. -/
def dt_view_get_image_to_act_on (mouseover : Int) (active_images : List Int)
    (sel_first : Option Int) : Int :=
  if mouseover > 0 then mouseover
  else if 0 < active_images.length then active_images.headD 0
  else
    match sel_first with
    | some s => s
    | none => -1

/-- `dt_view_active_images_reset` (view.c:2213-2220).  State is the
active-images list; the returned boolean records whether
`DT_SIGNAL_ACTIVE_IMAGES_CHANGE` was raised.  The source returns early
when `g_slist_length(active_images) < 1`, before freeing the list and
before the signal. -/
def dt_view_active_images_reset (active_images : List Int) (raise : Bool) :
    List Int × Bool :=
  if active_images.length < 1 then (active_images, false)
  else ([], raise)

/-! ## Overlay hit-test engine

`dt_view_process_image_over` computes in single-precision float; the
embedding computes in `ℚ`, exact for the decimal constants of the source
(`0.91`, `2.5`, `0.955`, ...).  `px`,`py` are `int32_t` at the C boundary
but are immediately promoted to float inside the arithmetic; they are
taken in `ℚ` here.  Only the check-only mode (`cr == NULL`) is modelled:
with `cr == NULL` the `img` argument and the drawing branches do not
affect the returned hover flag. -/

/-- view.c:52: `#define DECORATION_SIZE_LIMIT 40`. -/
def DECORATION_SIZE_LIMIT : ℚ := 40

/-- Modelled from the spec: the numeric values of the glyph enumeration
`dt_view_image_over_t` come from `views/view.h`, which is not under
`src/`; the spec fixes the scan order "rating stars 1..5, reject, group,
audio, altered" and a "none" value, matching consecutive values with
`DT_VIEW_DESERT` below the stars and `DT_VIEW_ERR`/`DT_VIEW_END` as the
scan bounds used by `dt_view_guess_image_over`. -/
def DT_VIEW_ERR : Int := -1

/-- Modelled from the spec (see `DT_VIEW_ERR`): the "none" glyph value. -/
def DT_VIEW_DESERT : Int := 0

/-- Modelled from the spec (see `DT_VIEW_ERR`): rating star 1. -/
def DT_VIEW_STAR_1 : Int := 1

/-- Modelled from the spec (see `DT_VIEW_ERR`): rating star 2. -/
def DT_VIEW_STAR_2 : Int := 2

/-- Modelled from the spec (see `DT_VIEW_ERR`): rating star 3. -/
def DT_VIEW_STAR_3 : Int := 3

/-- Modelled from the spec (see `DT_VIEW_ERR`): rating star 4. -/
def DT_VIEW_STAR_4 : Int := 4

/-- Modelled from the spec (see `DT_VIEW_ERR`): rating star 5. -/
def DT_VIEW_STAR_5 : Int := 5

/-- Modelled from the spec (see `DT_VIEW_ERR`): the reject glyph. -/
def DT_VIEW_REJECT : Int := 6

/-- Modelled from the spec (see `DT_VIEW_ERR`): the group glyph. -/
def DT_VIEW_GROUP : Int := 7

/-- Modelled from the spec (see `DT_VIEW_ERR`): the audio glyph. -/
def DT_VIEW_AUDIO : Int := 8

/-- Modelled from the spec (see `DT_VIEW_ERR`): the altered glyph. -/
def DT_VIEW_ALTERED : Int := 9

/-- Modelled from the spec (see `DT_VIEW_ERR`): the end-of-scan bound. -/
def DT_VIEW_END : Int := 10

/-- view.c:955: `r1 = fminf(DT_PIXEL_APPLY_DPI(20.0f) / 2.0f, 0.91 * width
/ 20.0f)`.  `DT_PIXEL_APPLY_DPI(v)` is `v * darktable.gui->dpi_factor`;
`dpi` is that factor. -/
def overlayR1 (dpi width : ℚ) : ℚ := min (20 * dpi / 2) (0.91 * width / 20)

/-- view.c:966-969: the vertical position of the glyph row; `ext` is the
`plugins/lighttable/extended_thumb_overlay` configuration flag. -/
def overlayRowY (ext : Bool) (height : ℚ) (zoom : Int) (r1 : ℚ) : ℚ :=
  if zoom ≠ 1 then (if ext then 0.93 * height else 0.955 * height - r1)
  else 9 * r1

/-- view.c:981-983: the x coordinate tested in iteration `i` of the
star-search loop.  In grid mode it depends on the loop index `i`; in
single-image mode (`zoom == 1`) the source uses `what` (the glyph being
queried), not `i`. -/
def starLoopX (what i : Int) (width : ℚ) (zoom : Int) (r1 : ℚ) : ℚ :=
  if zoom ≠ 1 then 0.5 * width - 5 * r1 + ((i : ℚ) - 1) * (2.5 * r1)
  else 3 * r1 + ((what : ℚ) - 1 + 1.5) * (2.5 * r1)

/-- view.c:974-987: the star-search loop.  `star` starts at -1; for each
`i` from `DT_VIEW_STAR_1` to `DT_VIEW_STAR_5` whose center passes the
strict Euclidean distance test the loop overwrites `star` with `i`, so the
final value is the last (highest) passing index.  Runs only when `active`
is nonzero. -/
def starSearch (what : Int) (active : Bool) (width : ℚ) (zoom : Int) (r1 y px py : ℚ) :
    Int :=
  if active then
    (List.range 5).foldl
      (fun star k =>
        let i : Int := 1 + (k : Int)
        let x := starLoopX what i width zoom r1
        if (px - x) ^ 2 + (py - y) ^ 2 < r1 ^ 2 then i else star)
      (-1)
  else -1

/-- view.c:997-999 / 989-1027: the x coordinate of the queried star glyph
(same formula as the loop body, with `what` in place of `i` in grid
mode). -/
def starGlyphX (what : Int) (width : ℚ) (zoom : Int) (r1 : ℚ) : ℚ :=
  if zoom ≠ 1 then 0.5 * width - 5 * r1 + ((what : ℚ) - 1) * (2.5 * r1)
  else 3 * r1 + ((what : ℚ) - 1 + 1.5) * (2.5 * r1)

/-- `dt_view_process_image_over` (view.c:945-1142) in check-only mode
(`cr == NULL`), returning the hover flag `ret` as a boolean.  The switch
over `what` is rendered as a condition chain on the glyph value; the
`default` branch returns 0 (no hover). -/
def dt_view_process_image_over (what : Int) (active : Bool) (width height : ℚ)
    (zoom : Int) (px py : ℚ) (dpi : ℚ) (ext : Bool) : Bool :=
  let r1 := overlayR1 dpi width
  let y := overlayRowY ext height zoom r1
  let star := starSearch what active width zoom r1 y px py
  if DT_VIEW_STAR_1 ≤ what ∧ what ≤ DT_VIEW_STAR_5 then
    -- view.c:1003: `active && star > what - DT_VIEW_STAR_1`
    active && decide (star > what - DT_VIEW_STAR_1)
  else if what = DT_VIEW_REJECT then
    -- view.c:1029-1046
    let x := if zoom ≠ 1 then 0.045 * width + r1 else 3 * r1
    active && decide ((px - x) ^ 2 + (py - y) ^ 2 < r1 ^ 2)
  else if what = DT_VIEW_GROUP then
    -- view.c:1067-1093; in single-image mode the row y is shifted up by r1
    let x := if zoom ≠ 1 then width * 0.955 - r1 * 4.5
             else (3 + 2 + 1 + 5 * 2.5 + 2 + 2) * r1
    let yg := if zoom ≠ 1 then height * 0.045 else y - r1
    active && decide (|px - x - r1| ≤ 0.9 * r1 ∧ |py - yg - r1| ≤ 0.9 * r1)
  else if what = DT_VIEW_AUDIO then
    -- view.c:1095-1115
    let x := if zoom ≠ 1 then width * 0.955 - r1 * 6
             else (3 + 2 + 1 + 5 * 2.5 + 2 + 6) * r1
    let ya := if zoom ≠ 1 then height * 0.045 + r1 else y
    active && decide (|px - x| ≤ 1.2 * r1 ∧ |py - ya| ≤ 1.2 * r1)
  else if what = DT_VIEW_ALTERED then
    -- view.c:1117-1135
    let x := if zoom ≠ 1 then width * 0.955 - r1
             else (3 + 2 + 1 + 5 * 2.5 + 2) * r1
    let ya := if zoom ≠ 1 then height * 0.045 + r1 else y
    active && decide (|px - x| ≤ 1.2 * r1 ∧ |py - ya| ≤ 1.2 * r1)
  else
    false

/-- `dt_view_guess_image_over` (view.c:1144-1157): gate on the combined
visibility predicate and the decoration size limit, then scan glyph values
from `DT_VIEW_ERR` up to (excluding) `DT_VIEW_END`, returning the first
hovered one; `DT_VIEW_DESERT` when none is.  `show_overlays` is
`darktable.gui->show_overlays`. -/
def dt_view_guess_image_over (width height : ℚ) (zoom : Int) (px py : ℚ)
    (show_overlays : Bool) (dpi : ℚ) (ext : Bool) : Int :=
  let in_metadata_zone := (px < width ∧ py < height / 2) ∨ zoom > 1
  let draw_metadata := show_overlays ∨ in_metadata_zone
  if draw_metadata ∧ width > DECORATION_SIZE_LIMIT then
    match ((List.range 11).map (fun k => DT_VIEW_ERR + (k : Int))).find?
        (fun i => dt_view_process_image_over i true width height zoom px py dpi ext) with
    | some i => i
    | none => DT_VIEW_DESERT
  else DT_VIEW_DESERT

/-! ## View registry ordering -/

/-- A loaded view as seen by `sort_views` (view.c:115-136): its stable
module name (`v->module_name`) and the display name returned by the name
capability (`v->name(v)`). -/
structure ViewEntry where
  module_name : String
  name : String
deriving DecidableEq, Repr

/-- C `strcmp` on character lists, abstracted to its sign (the comparator
only consumes the sign).  Byte-lexicographic comparison of UTF-8 strings
coincides with codepoint-lexicographic comparison, so comparing `Char`
codepoints is faithful. -/
def strcmpChars : List Char → List Char → Int
  | [], [] => 0
  | [], _ :: _ => -1
  | _ :: _, [] => 1
  | a :: as, b :: bs =>
    if a.toNat < b.toNat then -1
    else if b.toNat < a.toNat then 1
    else strcmpChars as bs

/-- C `strcmp` on strings (sign only). -/
def strcmp (a b : String) : Int := strcmpChars a.data b.data

/-- view.c:117: `view_order = {"lighttable", "darkroom"}`. -/
def view_order : List String := ["lighttable", "darkroom"]

/-- view.c:124-131: `apos` starts at `n_view_order` (2) and the loop over
`view_order` replaces it with the index whose name matches; unrolled over
the two-element `view_order`. -/
def viewPos (v : ViewEntry) : Int :=
  if v.module_name = "lighttable" then 0
  else if v.module_name = "darkroom" then 1
  else 2

/-- `sort_views` (view.c:115-136): compare priority positions; a zero
difference (both views unlisted, or same listed name) falls back to
`strcmp` on the display names. -/
def sort_views (a b : ViewEntry) : Int :=
  let order := viewPos a - viewPos b
  if order ≠ 0 then order else strcmp a.name b.name

/-- The non-strict order induced by the `sort_views` comparator. -/
def viewLe (a b : ViewEntry) : Prop := sort_views a b ≤ 0

instance : DecidableRel viewLe :=
  fun a b => inferInstanceAs (Decidable (sort_views a b ≤ 0))

/-- The strict order induced by the `sort_views` comparator. -/
def viewLt (a b : ViewEntry) : Prop := sort_views a b < 0

/-- The order induced by `strcmp` on display names alone (the tie-break
the comparator applies to unlisted views). -/
def nameLe (a b : ViewEntry) : Prop := strcmp a.name b.name ≤ 0

instance : DecidableRel nameLe :=
  fun a b => inferInstanceAs (Decidable (strcmp a.name b.name ≤ 0))

/-- Modelled from the spec: `dt_module_load_modules` (common/module.c, not
under src/) builds `vm->views` sorted with the `sort_views` comparator
(view.c:140, §4.2 "load_all(search_path) -> ordered list of View").  The
sort is modelled as an insertion sort under the comparator's non-strict
order. -/
def dt_view_registry_order (l : List ViewEntry) : List ViewEntry :=
  List.insertionSort viewLe l

/-- The registry order in the words of the spec: views named in the fixed
priority list first, in the list's declared order ("lighttable" then
"darkroom"), then all other views sorted by case-sensitive comparison of
their display names. -/
def registrySpecOrder (l : List ViewEntry) : List ViewEntry :=
  l.filter (fun v => v.module_name == "lighttable") ++
  l.filter (fun v => v.module_name == "darkroom") ++
  List.insertionSort nameLe (l.filter (fun v => viewPos v == 2))

/-! ## Theorems -/

/-- C1 (counterexample): the claim "with a non-empty active-images set,
`image_to_act_on()` returns its first element, ignoring any pointer-hover
state" fails at mouse-over id 5 with active-images `[7]`: the source
checks the mouse-over id first and returns 5, not the first active image
7. -/
theorem image_to_act_on_hover_cex :
    0 < [(7 : Int)].length ∧
    dt_view_get_image_to_act_on 5 [7] none ≠ [(7 : Int)].headD 0 := by
  decide

/-- C1 (amended): with a non-empty active-images set and no pointer-hover
state (`dt_control_get_mouse_over_id()` not positive),
`dt_view_get_image_to_act_on` returns the first element of the
active-images set. -/
theorem image_to_act_on_active_first (mouseover : Int) (l : List Int)
    (sel : Option Int) (hmo : ¬ mouseover > 0) (hl : 0 < l.length) :
    dt_view_get_image_to_act_on mouseover l sel = l.headD 0 := by
  unfold dt_view_get_image_to_act_on
  rw [if_neg hmo, if_pos hl]

/-- C1 (witness): the amended theorem at mouse-over 0 and active-images
`[7, 9]`. -/
theorem image_to_act_on_active_first_witness :
    dt_view_get_image_to_act_on 0 [7, 9] none = 7 :=
  image_to_act_on_active_first 0 [7, 9] none (by decide) (by decide)

/-- C10: resetting the active-images set when it is already empty is a
no-op — the set stays empty and `DT_SIGNAL_ACTIVE_IMAGES_CHANGE` is not
raised even when `raise` is true; and whenever the signal is raised, a
non-empty set was actually cleared. -/
theorem active_images_reset_empty_noop (raise : Bool) (l : List Int) :
    dt_view_active_images_reset [] raise = ([], false) ∧
    ((dt_view_active_images_reset l raise).2 = true →
      l ≠ [] ∧ (dt_view_active_images_reset l raise).1 = [] ∧ raise = true) := by
  constructor
  · rfl
  · unfold dt_view_active_images_reset
    by_cases h : l.length < 1
    · rw [if_pos h]
      intro hfalse
      exact absurd hfalse (by simp)
    · rw [if_neg h]
      intro hr
      refine ⟨?_, rfl, hr⟩
      intro hnil
      exact h (by simp [hnil])

/-- C10 (witness): the conjunction at `raise = true` and the non-empty
set `[3]`. -/
theorem active_images_reset_empty_noop_witness :
    dt_view_active_images_reset [] true = ([], false) ∧
    ([(3 : Int)] ≠ [] ∧ (dt_view_active_images_reset [3] true).1 = [] ∧ true = true) :=
  ⟨(active_images_reset_empty_noop true [3]).1,
   (active_images_reset_empty_noop true [3]).2 (by decide)⟩

/-- C3: when the new view's `try_enter` guard returns a nonzero value,
the switch returns that value, the current view is unchanged, and no
leave/enter lifecycle hook of either view and no plugin view-leave /
view-enter hook is invoked. -/
theorem switch_guard_refusal (cur : Option SwitchView) (plugins : List SwitchPlugin)
    (B : SwitchView) (hg : B.hasTryEnter = true) (hr : B.tryEnterRet ≠ 0) :
    (dt_view_manager_switch_by_view cur plugins (some B)).1 = B.tryEnterRet ∧
    (dt_view_manager_switch_by_view cur plugins (some B)).2.1 = cur ∧
    ∀ e ∈ (dt_view_manager_switch_by_view cur plugins (some B)).2.2,
      (∀ x, e ≠ Event.leave x) ∧ (∀ x, e ≠ Event.enter x) ∧
      (∀ x, e ≠ Event.pluginViewLeave x) ∧ (∀ x, e ≠ Event.pluginViewEnter x) := by
  have h : (B.hasTryEnter && decide (B.tryEnterRet ≠ 0)) = true := by
    simp [hg, hr]
  unfold dt_view_manager_switch_by_view
  dsimp only
  rw [if_pos h]
  refine ⟨rfl, rfl, ?_⟩
  intro e he
  simp only [hg, if_true, List.mem_singleton] at he
  subst he
  refine ⟨?_, ?_, ?_, ?_⟩ <;> intro x <;> simp

/-- C3 (witness): a concrete refusal — guard returns 3, current view `A`
(id 0) stays current. -/
theorem switch_guard_refusal_witness :
    (dt_view_manager_switch_by_view
        (some ⟨0, true, true, false, 0⟩) [] (some ⟨1, true, true, true, 3⟩)).1 = 3 ∧
    (dt_view_manager_switch_by_view
        (some ⟨0, true, true, false, 0⟩) [] (some ⟨1, true, true, true, 3⟩)).2.1 =
      some ⟨0, true, true, false, 0⟩ ∧
    ∀ e ∈ (dt_view_manager_switch_by_view
        (some ⟨0, true, true, false, 0⟩) [] (some ⟨1, true, true, true, 3⟩)).2.2,
      (∀ x, e ≠ Event.leave x) ∧ (∀ x, e ≠ Event.enter x) ∧
      (∀ x, e ≠ Event.pluginViewLeave x) ∧ (∀ x, e ≠ Event.pluginViewEnter x) :=
  switch_guard_refusal (some ⟨0, true, true, false, 0⟩) [] ⟨1, true, true, true, 3⟩
    rfl (by decide)

/-- C9: for any thumbnail width at or below `DECORATION_SIZE_LIMIT`, the
hit-test classification returns `DT_VIEW_DESERT` for every pointer
position, height, zoom mode and configuration. -/
theorem guess_image_over_small_width (width height : ℚ) (zoom : Int) (px py : ℚ)
    (show_overlays : Bool) (dpi : ℚ) (ext : Bool)
    (hw : width ≤ DECORATION_SIZE_LIMIT) :
    dt_view_guess_image_over width height zoom px py show_overlays dpi ext =
      DT_VIEW_DESERT := by
  unfold dt_view_guess_image_over
  rw [if_neg]
  intro hcontra
  exact absurd hcontra.2 (not_lt.2 hw)

/-- C9 (witness): width exactly at the limit (40), pointer inside the
metadata zone with overlays forced on, still classified as none. -/
theorem guess_image_over_small_width_witness :
    dt_view_guess_image_over 40 100 1 20 10 true (2/5) false = DT_VIEW_DESERT :=
  guess_image_over_small_width 40 100 1 20 10 true (2/5) false (by norm_num [DECORATION_SIZE_LIMIT])

/-- Helper: the mouse-move plugin loop consults exactly the visible
modules with a moved-handler, in traversal order, and its `handled` flag
is the OR of the consulted handlers' results. -/
theorem mouseMovedChain_spec (l : List LibModule) :
    mouseMovedChain l =
      (l.any claimsMoved,
       (l.filter invokedMoved).map fun p => Event.pluginMoved p.pid) := by
  induction l with
  | nil => rfl
  | cons p rest ih =>
    by_cases hp : invokedMoved p = true
    · simp [mouseMovedChain, hp, ih, claimsMoved, List.filter_cons]
    · simp [mouseMovedChain, hp, ih, claimsMoved, List.filter_cons]

/-- Helper: the button-release plugin loop consults exactly the visible
modules with a release handler, in traversal order, and its `handled`
flag is the OR of the consulted handlers' results. -/
theorem buttonReleasedChain_spec (l : List LibModule) :
    buttonReleasedChain l =
      (l.any claimsReleased,
       (l.filter invokedReleased).map fun p => Event.pluginReleased p.pid) := by
  induction l with
  | nil => rfl
  | cons p rest ih =>
    by_cases hp : invokedReleased p = true
    · simp [buttonReleasedChain, hp, ih, claimsReleased, List.filter_cons]
    · simp [buttonReleasedChain, hp, ih, claimsReleased, List.filter_cons]

/-- Helper: with no claiming module, the button-press loop consults every
visible module with a press handler and ends unhandled. -/
theorem buttonPressedChain_no_claim (l : List LibModule)
    (h : ∀ q ∈ l, claimsPressed q = false) :
    buttonPressedChain l =
      (false, (l.filter invokedPressed).map fun p => Event.pluginPressed p.pid) := by
  induction l with
  | nil => rfl
  | cons p rest ih =>
    have hrest : ∀ q ∈ rest, claimsPressed q = false :=
      fun q hq => h q (List.mem_cons_of_mem _ hq)
    have hp := h p (List.mem_cons_self p rest)
    by_cases hi : invokedPressed p = true
    · have hret : p.buttonPressedRet = false := by
        simpa [claimsPressed, hi] using hp
      simp [buttonPressedChain, hi, hret, ih hrest, List.filter_cons]
    · simp [buttonPressedChain, hi, ih hrest, List.filter_cons]

/-- Helper: the button-press loop stops at the first claiming module `p`:
it consults the visible handler-modules before `p` in traversal order,
then `p`, and nothing after `p`. -/
theorem buttonPressedChain_stops (l₁ : List LibModule) (p : LibModule)
    (l₂ : List LibModule) (h1 : ∀ q ∈ l₁, claimsPressed q = false)
    (hp : claimsPressed p = true) :
    buttonPressedChain (l₁ ++ p :: l₂) =
      (true, (l₁.filter invokedPressed).map (fun q => Event.pluginPressed q.pid)
             ++ [Event.pluginPressed p.pid]) := by
  have hboth : invokedPressed p = true ∧ p.buttonPressedRet = true := by
    simpa [claimsPressed] using hp
  have hi := hboth.1
  have hret := hboth.2
  induction l₁ with
  | nil => simp [buttonPressedChain, hi, hret]
  | cons q rest ih =>
    have hq := h1 q (List.mem_cons_self q rest)
    have hrest : ∀ x ∈ rest, claimsPressed x = false :=
      fun x hx => h1 x (List.mem_cons_of_mem _ hx)
    by_cases hiq : invokedPressed q = true
    · have hrq : q.buttonPressedRet = false := by
        simpa [claimsPressed, hiq] using hq
      simp [buttonPressedChain, hiq, hrq, ih hrest, List.filter_cons]
    · simp [buttonPressedChain, hiq, ih hrest, List.filter_cons]

/-- C7: pointer-motion dispatch with an active view is broadcast: every
visible module with a moved-handler is invoked regardless of what earlier
modules returned, and the view's own moved-handler runs only if no module
claimed the event. -/
theorem mouse_moved_broadcast (v : ViewHandlers) (plugins : List LibModule) :
    (∀ p ∈ plugins, invokedMoved p = true →
      Event.pluginMoved p.pid ∈ dt_view_manager_mouse_moved (some v) plugins) ∧
    (Event.viewMoved ∈ dt_view_manager_mouse_moved (some v) plugins →
      ∀ p ∈ plugins, claimsMoved p = false) := by
  unfold dt_view_manager_mouse_moved
  dsimp only
  rw [mouseMovedChain_spec]
  constructor
  · intro p hp hi
    apply List.mem_append_left
    exact List.mem_map_of_mem _ (List.mem_filter.2 ⟨List.mem_reverse.2 hp, hi⟩)
  · intro hmem p hp
    rcases List.mem_append.1 hmem with h | h
    · rcases List.mem_map.1 h with ⟨q, _, hq⟩
      exact absurd hq (by simp)
    · by_cases hany : plugins.reverse.any claimsMoved = true
      · simp [hany] at h
      · have : plugins.reverse.any claimsMoved = false := by
          simpa using hany
        rw [List.any_eq_false] at this
        simpa using this p (List.mem_reverse.2 hp)

/-- C7 (witness): two visible modules with moved-handlers, the first in
traversal order claiming the event; the second's handler is still
invoked. -/
theorem mouse_moved_broadcast_witness :
    Event.pluginMoved 2 ∈ dt_view_manager_mouse_moved
      (some ⟨true, false, 0, false, 0⟩)
      [⟨2, true, true, false, false, false, false, false⟩,
       ⟨1, true, true, true, false, false, false, false⟩] :=
  (mouse_moved_broadcast ⟨true, false, 0, false, 0⟩
      [⟨2, true, true, false, false, false, false, false⟩,
       ⟨1, true, true, true, false, false, false, false⟩]).1
    ⟨2, true, true, false, false, false, false, false⟩ (by decide) (by decide)

/-- C2 (counterexample): the claim "for both button-press and
button-release dispatch ... traversal stops at the first module that
reports it handled the event, modules after it are not invoked, and if no
module handled it the active view's own handler is invoked and its result
is the dispatcher's final result" fails for button-release: with modules
`m1` (pid 1, claims the release, first in traversal order) and `m2`
(pid 2, after `m1`), `m2`'s handler is still invoked; and with no
claiming module and a view handler returning 7, the dispatcher returns 0,
not 7. -/
theorem button_release_first_responder_cex :
    claimsReleased ⟨1, true, false, false, false, false, true, true⟩ = true ∧
    (dt_view_manager_button_released (some ⟨false, false, 0, true, 7⟩)
        [⟨2, true, false, false, false, false, true, false⟩,
         ⟨1, true, false, false, false, false, true, true⟩]).2 =
      [Event.pluginReleased 1, Event.pluginReleased 2] ∧
    Event.pluginReleased 2 ∈
      (dt_view_manager_button_released (some ⟨false, false, 0, true, 7⟩)
        [⟨2, true, false, false, false, false, true, false⟩,
         ⟨1, true, false, false, false, false, true, true⟩]).2 ∧
    (dt_view_manager_button_released (some ⟨false, false, 0, true, 7⟩)
        [⟨2, true, false, false, false, false, true, false⟩]).2 =
      [Event.pluginReleased 2, Event.viewReleased] ∧
    (dt_view_manager_button_released (some ⟨false, false, 0, true, 7⟩)
        [⟨2, true, false, false, false, false, true, false⟩]).1 = 0 ∧
    (0 : Int) ≠ 7 := by
  decide

/-- C2 (amended): button-press dispatch is first-responder — traversal
stops at the first module claiming the event, modules after it are not
invoked, and with no claiming module the view's handler is invoked and
its result is the final result.  Button-release dispatch instead consults
every visible module with a release handler regardless of earlier
results, returns 1 when any module claimed the event, and otherwise
invokes the view's handler but returns 0, discarding that handler's
result. -/
theorem button_dispatch_policies (v : ViewHandlers) (plugins : List LibModule)
    (l₁ : List LibModule) (p : LibModule) (l₂ : List LibModule) :
    (plugins.reverse = l₁ ++ p :: l₂ → (∀ q ∈ l₁, claimsPressed q = false) →
      claimsPressed p = true →
      dt_view_manager_button_pressed (some v) plugins =
        (1, (l₁.filter invokedPressed).map (fun q => Event.pluginPressed q.pid)
            ++ [Event.pluginPressed p.pid])) ∧
    ((∀ q ∈ plugins, claimsPressed q = false) →
      dt_view_manager_button_pressed (some v) plugins =
        ((if v.hasButtonPressed then v.buttonPressedRet else 0),
         (plugins.reverse.filter invokedPressed).map
             (fun q => Event.pluginPressed q.pid)
           ++ (if v.hasButtonPressed then [Event.viewPressed] else []))) ∧
    (dt_view_manager_button_released (some v) plugins =
      ((if plugins.any claimsReleased then 1 else 0),
       (plugins.reverse.filter invokedReleased).map
           (fun q => Event.pluginReleased q.pid)
         ++ (if !plugins.any claimsReleased && v.hasButtonReleased
             then [Event.viewReleased] else []))) := by
  refine ⟨?_, ?_, ?_⟩
  · intro hrev h1 hp
    unfold dt_view_manager_button_pressed
    dsimp only
    rw [hrev, buttonPressedChain_stops l₁ p l₂ h1 hp]
    simp
  · intro h
    have h' : ∀ q ∈ plugins.reverse, claimsPressed q = false :=
      fun q hq => h q (List.mem_reverse.1 hq)
    unfold dt_view_manager_button_pressed
    dsimp only
    rw [buttonPressedChain_no_claim _ h']
    by_cases hv : v.hasButtonPressed = true
    · simp [hv]
    · simp only [Bool.not_eq_true] at hv
      simp [hv]
  · unfold dt_view_manager_button_released
    dsimp only
    rw [buttonReleasedChain_spec]
    have hany : plugins.reverse.any claimsReleased = plugins.any claimsReleased := by
      simp [List.any_eq_true]
    by_cases hc : plugins.any claimsReleased = true
    · simp [hany, hc]
    · simp only [Bool.not_eq_true] at hc
      by_cases hv : v.hasButtonReleased = true
      · simp [hany, hc, hv]
      · simp only [Bool.not_eq_true] at hv
        simp [hany, hc, hv]

/-- C2 (witness): the amended behaviour at concrete inputs — a press
claimed by the first module in traversal order yields result 1 with only
that module invoked. -/
theorem button_dispatch_policies_witness :
    dt_view_manager_button_pressed (some ⟨false, true, 5, false, 0⟩)
      [⟨2, true, false, false, true, false, false, false⟩,
       ⟨1, true, false, false, true, true, false, false⟩] =
      (1, [Event.pluginPressed 1]) := by
  have h := (button_dispatch_policies ⟨false, true, 5, false, 0⟩
      [⟨2, true, false, false, true, false, false, false⟩,
       ⟨1, true, false, false, true, true, false, false⟩]
      [] ⟨1, true, false, false, true, true, false, false⟩
      [⟨2, true, false, false, true, false, false, false⟩]).1
    (by decide) (by decide) (by decide)
  simpa using h

/-- Helper: membership in a conditional singleton-or-empty list. -/
theorem mem_ite_nil {c : Prop} [Decidable c] (x : Event) (l : List Event) :
    x ∈ (if c then l else []) ↔ c ∧ x ∈ l := by
  split <;> simp_all

/-- C4: with no entry guard or a zero-returning guard, the switch returns
0 and sets the current view to the new view; when the old view implements
`leave` and the new view implements `enter`, the old view's leave hook
fires exactly once, strictly before the new view's enter hook, which also
fires exactly once. -/
theorem switch_enter_success (plugins : List SwitchPlugin) (A B : SwitchView)
    (hA : A.hasLeave = true) (hB : B.hasEnter = true)
    (hg : B.hasTryEnter = false ∨ B.tryEnterRet = 0) :
    (dt_view_manager_switch_by_view (some A) plugins (some B)).1 = 0 ∧
    (dt_view_manager_switch_by_view (some A) plugins (some B)).2.1 = some B ∧
    ∃ t₁ t₂ t₃,
      (dt_view_manager_switch_by_view (some A) plugins (some B)).2.2 =
        t₁ ++ [Event.leave A.vid] ++ t₂ ++ [Event.enter B.vid] ++ t₃ ∧
      Event.leave A.vid ∉ t₁ ++ t₂ ++ t₃ ∧
      Event.enter B.vid ∉ t₁ ++ t₂ ++ t₃ := by
  have hcond : (B.hasTryEnter && decide (B.tryEnterRet ≠ 0)) = false := by
    rcases hg with h | h <;> simp [h]
  have hcond' : ¬ ((B.hasTryEnter && decide (B.tryEnterRet ≠ 0)) = true) := by
    rw [hcond]
    exact Bool.false_ne_true
  unfold dt_view_manager_switch_by_view
  dsimp only
  rw [if_neg hcond']
  refine ⟨rfl, rfl,
    (if B.hasTryEnter = true then [Event.tryEnter B.vid] else []),
    (plugins.flatMap fun p =>
      if (p.visibleIn A && p.hasViewLeave) = true then [Event.pluginViewLeave p.pid]
      else []) ++
    (plugins.reverse.flatMap fun p =>
      if p.visibleIn B = true then [Event.pluginAttach p.pid] else []) ++
    (plugins.flatMap fun p =>
      if (p.visibleIn B && p.hasViewEnter) = true then [Event.pluginViewEnter p.pid]
      else []),
    [Event.signalViewChanged], ?_, ?_, ?_⟩
  · simp [hA, hB]
  · simp [mem_ite_nil, List.mem_flatMap]
  · simp [mem_ite_nil, List.mem_flatMap]

/-- C4 (witness): the success path at concrete views — old view 0 with a
leave hook, new view 1 with an enter hook and a zero-returning guard. -/
theorem switch_enter_success_witness :
    (dt_view_manager_switch_by_view (some ⟨0, true, true, false, 0⟩) []
        (some ⟨1, false, true, true, 0⟩)).1 = 0 ∧
    (dt_view_manager_switch_by_view (some ⟨0, true, true, false, 0⟩) []
        (some ⟨1, false, true, true, 0⟩)).2.1 = some ⟨1, false, true, true, 0⟩ ∧
    ∃ t₁ t₂ t₃,
      (dt_view_manager_switch_by_view (some ⟨0, true, true, false, 0⟩) []
          (some ⟨1, false, true, true, 0⟩)).2.2 =
        t₁ ++ [Event.leave 0] ++ t₂ ++ [Event.enter 1] ++ t₃ ∧
      Event.leave 0 ∉ t₁ ++ t₂ ++ t₃ ∧
      Event.enter 1 ∉ t₁ ++ t₂ ++ t₃ :=
  switch_enter_success [] ⟨0, true, true, false, 0⟩ ⟨1, false, true, true, 0⟩
    rfl rfl (Or.inr rfl)

/-- Helper: the teardown segment of the switch-to-none path contains no
`leave` event. -/
theorem teardown_count_leave (plugins : List SwitchPlugin) (old : SwitchView) (x : Nat) :
    (plugins.flatMap fun q =>
        if q.visibleIn old = true then
          (if q.hasViewLeave = true then [Event.pluginViewLeave q.pid] else []) ++
          [Event.pluginGuiCleanup q.pid]
        else []).count (Event.leave x) = 0 := by
  induction plugins with
  | nil => rfl
  | cons q rest ih =>
    rw [List.flatMap_cons, List.count_append, ih]
    split
    · rw [List.count_append]
      split <;> simp
    · rfl

/-- Helper: a plugin absent from the identity list contributes no
view-leave event to the teardown segment. -/
theorem teardown_count_viewLeave_zero (plugins : List SwitchPlugin)
    (old : SwitchView) (x : Nat) (hx : x ∉ plugins.map SwitchPlugin.pid) :
    (plugins.flatMap fun q =>
        if q.visibleIn old = true then
          (if q.hasViewLeave = true then [Event.pluginViewLeave q.pid] else []) ++
          [Event.pluginGuiCleanup q.pid]
        else []).count (Event.pluginViewLeave x) = 0 := by
  induction plugins with
  | nil => rfl
  | cons q rest ih =>
    simp only [List.map_cons, List.mem_cons] at hx
    push_neg at hx
    rw [List.flatMap_cons, List.count_append, ih hx.2]
    have hqx : q.pid ≠ x := fun h => hx.1 h.symm
    split
    · rw [List.count_append]
      split <;> simp [List.count_cons, hqx]
    · rfl

/-- Helper: a visible plugin with a view-leave hook contributes exactly
one view-leave event to the teardown segment (distinct plugin
identities). -/
theorem teardown_count_viewLeave_one (plugins : List SwitchPlugin)
    (old : SwitchView) (p : SwitchPlugin) (hmem : p ∈ plugins)
    (hnd : (plugins.map SwitchPlugin.pid).Nodup)
    (hvis : p.visibleIn old = true) (hvl : p.hasViewLeave = true) :
    (plugins.flatMap fun q =>
        if q.visibleIn old = true then
          (if q.hasViewLeave = true then [Event.pluginViewLeave q.pid] else []) ++
          [Event.pluginGuiCleanup q.pid]
        else []).count (Event.pluginViewLeave p.pid) = 1 := by
  induction plugins with
  | nil => cases hmem
  | cons q rest ih =>
    simp only [List.map_cons, List.nodup_cons] at hnd
    rw [List.flatMap_cons, List.count_append]
    rcases List.mem_cons.1 hmem with rfl | hmem'
    · rw [teardown_count_viewLeave_zero rest old p.pid hnd.1]
      rw [if_pos hvis, List.count_append, if_pos hvl]
      simp
    · have hq : q.pid ≠ p.pid := by
        intro h
        exact hnd.1 (h ▸ List.mem_map_of_mem SwitchPlugin.pid hmem')
      rw [ih hmem' hnd.2]
      split
      · rw [List.count_append]
        split <;> simp [List.count_cons, hq]
      · rfl

/-- C6: switching from view A to none returns 0, invokes A's leave hook
exactly once, invokes the view-leave hook of every overlay module visible
in A (that has one) exactly once, and leaves the current view equal to
none; invoking the switch-to-none again when the current view is already
none produces no hook invocations and no state change, and the
switch-to-none path always returns success. -/
theorem switch_to_none_spec (plugins : List SwitchPlugin) (A : SwitchView)
    (hA : A.hasLeave = true) (hnd : (plugins.map SwitchPlugin.pid).Nodup) :
    (dt_view_manager_switch_by_view (some A) plugins none).1 = 0 ∧
    (dt_view_manager_switch_by_view (some A) plugins none).2.1 = none ∧
    (dt_view_manager_switch_by_view (some A) plugins none).2.2.count
      (Event.leave A.vid) = 1 ∧
    (∀ p ∈ plugins, p.visibleIn A = true → p.hasViewLeave = true →
      (dt_view_manager_switch_by_view (some A) plugins none).2.2.count
        (Event.pluginViewLeave p.pid) = 1) ∧
    dt_view_manager_switch_by_view none plugins none = (0, none, []) ∧
    (∀ cur, (dt_view_manager_switch_by_view cur plugins none).1 = 0) := by
  refine ⟨rfl, rfl, ?_, ?_, rfl, ?_⟩
  · show (_ ++ _ : List Event).count _ = 1
    rw [List.count_append, teardown_count_leave plugins A A.vid, if_pos hA]
    simp
  · intro p hp hvis hvl
    show (_ ++ _ : List Event).count _ = 1
    rw [List.count_append, teardown_count_viewLeave_one plugins A p hp hnd hvis hvl]
    split <;> simp
  · intro cur
    cases cur <;> rfl

/-- C6 (witness): the switch-to-none conjunction at a concrete view with
one visible plugin. -/
theorem switch_to_none_spec_witness :
    (dt_view_manager_switch_by_view (some ⟨0, true, true, false, 0⟩)
        [⟨1, [0], true, true⟩] none).1 = 0 ∧
    (dt_view_manager_switch_by_view (some ⟨0, true, true, false, 0⟩)
        [⟨1, [0], true, true⟩] none).2.1 = none ∧
    (dt_view_manager_switch_by_view (some ⟨0, true, true, false, 0⟩)
        [⟨1, [0], true, true⟩] none).2.2.count (Event.leave 0) = 1 ∧
    (∀ p ∈ [(⟨1, [0], true, true⟩ : SwitchPlugin)],
      p.visibleIn ⟨0, true, true, false, 0⟩ = true → p.hasViewLeave = true →
      (dt_view_manager_switch_by_view (some ⟨0, true, true, false, 0⟩)
          [⟨1, [0], true, true⟩] none).2.2.count (Event.pluginViewLeave p.pid) = 1) ∧
    dt_view_manager_switch_by_view none [⟨1, [0], true, true⟩] none = (0, none, []) ∧
    (∀ cur, (dt_view_manager_switch_by_view cur [⟨1, [0], true, true⟩] none).1 = 0) :=
  switch_to_none_spec [⟨1, [0], true, true⟩] ⟨0, true, true, false, 0⟩ rfl (by decide)

/-- Helper: in single-image mode (`zoom = 1`) the x coordinate tested in
the star-search loop uses the queried glyph `what`, not the loop index,
so all five iterations test the same point: the search yields star 5 when
that (index-independent) distance test passes and -1 otherwise. -/
theorem starSearch_zoom1 (what : Int) (width : ℚ) (r1 y px py : ℚ) :
    starSearch what true width 1 r1 y px py =
      if (px - (3 * r1 + ((what : ℚ) - 1 + 1.5) * (2.5 * r1))) ^ 2 + (py - y) ^ 2 < r1 ^ 2
      then 5 else -1 := by
  have hrange : List.range 5 = [0, 1, 2, 3, 4] := rfl
  simp only [starSearch, if_true, hrange, List.foldl_cons, List.foldl_nil, starLoopX]
  norm_num
  split_ifs with h <;> rfl

/-- Helper: a pointer a full star-pitch (or more) away from a star center
fails the strict distance test. -/
theorem star_miss (r1 : ℚ) (hr1 : 0 < r1) (m : ℚ) (hm : 1 ≤ |m|) :
    ¬ ((m * (2.5 * r1)) ^ 2 + (0 : ℚ) ^ 2 < r1 ^ 2) := by
  intro hlt
  have h2 : 1 ≤ m ^ 2 := by
    nlinarith [sq_abs m, sq_nonneg (|m| - 1), abs_nonneg m]
  nlinarith [pow_pos hr1 2, mul_le_mul_of_nonneg_right h2
    (by positivity : (0 : ℚ) ≤ (2.5 * r1) ^ 2)]

/-- C8: in single-image mode (`zoom = 1`), with the pointer exactly at the
center of rating star 3 (x from the star layout formula, y the glyph-row
height), the check-only hover classification with `active` nonzero
reports hovered for star 3, and not hovered for stars 1, 2, 4 and 5
queried independently at that same pointer position. -/
theorem star3_center_hover (dpi width height : ℚ) (hd : 0 < dpi) (hw : 0 < width)
    (ext : Bool) :
    dt_view_process_image_over DT_VIEW_STAR_3 true width height 1
      (starGlyphX DT_VIEW_STAR_3 width 1 (overlayR1 dpi width))
      (overlayRowY ext height 1 (overlayR1 dpi width)) dpi ext = true ∧
    (∀ s ∈ [DT_VIEW_STAR_1, DT_VIEW_STAR_2, DT_VIEW_STAR_4, DT_VIEW_STAR_5],
      dt_view_process_image_over s true width height 1
        (starGlyphX DT_VIEW_STAR_3 width 1 (overlayR1 dpi width))
        (overlayRowY ext height 1 (overlayR1 dpi width)) dpi ext = false) := by
  set r1 := overlayR1 dpi width with hr1def
  have hr1 : 0 < r1 := by
    rw [hr1def]
    unfold overlayR1
    apply lt_min
    · positivity
    · positivity
  have hx : starGlyphX DT_VIEW_STAR_3 width 1 r1 = 47 / 4 * r1 := by
    norm_num [starGlyphX, DT_VIEW_STAR_3]
    ring
  have hy : overlayRowY ext height 1 r1 = 9 * r1 := by
    norm_num [overlayRowY]
  constructor
  · unfold dt_view_process_image_over
    rw [← hr1def]
    rw [if_pos (by norm_num [DT_VIEW_STAR_1, DT_VIEW_STAR_3, DT_VIEW_STAR_5])]
    rw [starSearch_zoom1]
    rw [if_pos ?hit]
    case hit =>
      rw [hx, hy]
      have : (47 / 4 * r1 - (3 * r1 + (((DT_VIEW_STAR_3 : Int) : ℚ) - 1 + 1.5) * (2.5 * r1))) = 0 := by
        norm_num [DT_VIEW_STAR_3]
        ring
      rw [this]
      simp only [sub_self]
      norm_num
      positivity
    norm_num [DT_VIEW_STAR_3, DT_VIEW_STAR_1]
  · intro s hs
    fin_cases hs
    · unfold dt_view_process_image_over
      rw [← hr1def]
      rw [if_pos (by norm_num [DT_VIEW_STAR_1, DT_VIEW_STAR_5])]
      rw [starSearch_zoom1, hx, hy]
      rw [if_neg (by
        have h1 : (47 / 4 * r1 -
            (3 * r1 + (((DT_VIEW_STAR_1 : Int) : ℚ) - 1 + 1.5) * (2.5 * r1))) =
            2 * (2.5 * r1) := by
          norm_num [DT_VIEW_STAR_1]
          ring
        rw [h1, sub_self]
        exact star_miss r1 hr1 2 (by norm_num))]
      norm_num [DT_VIEW_STAR_1]
    · unfold dt_view_process_image_over
      rw [← hr1def]
      rw [if_pos (by norm_num [DT_VIEW_STAR_1, DT_VIEW_STAR_2, DT_VIEW_STAR_5])]
      rw [starSearch_zoom1, hx, hy]
      rw [if_neg (by
        have h1 : (47 / 4 * r1 -
            (3 * r1 + (((DT_VIEW_STAR_2 : Int) : ℚ) - 1 + 1.5) * (2.5 * r1))) =
            1 * (2.5 * r1) := by
          norm_num [DT_VIEW_STAR_2]
          ring
        rw [h1, sub_self]
        exact star_miss r1 hr1 1 (by norm_num))]
      norm_num [DT_VIEW_STAR_1, DT_VIEW_STAR_2]
    · unfold dt_view_process_image_over
      rw [← hr1def]
      rw [if_pos (by norm_num [DT_VIEW_STAR_1, DT_VIEW_STAR_4, DT_VIEW_STAR_5])]
      rw [starSearch_zoom1, hx, hy]
      rw [if_neg (by
        have h1 : (47 / 4 * r1 -
            (3 * r1 + (((DT_VIEW_STAR_4 : Int) : ℚ) - 1 + 1.5) * (2.5 * r1))) =
            (-1) * (2.5 * r1) := by
          norm_num [DT_VIEW_STAR_4]
          ring
        rw [h1, sub_self]
        exact star_miss r1 hr1 (-1) (by norm_num))]
      norm_num [DT_VIEW_STAR_1, DT_VIEW_STAR_4]
    · unfold dt_view_process_image_over
      rw [← hr1def]
      rw [if_pos (by norm_num [DT_VIEW_STAR_1, DT_VIEW_STAR_5])]
      rw [starSearch_zoom1, hx, hy]
      rw [if_neg (by
        have h1 : (47 / 4 * r1 -
            (3 * r1 + (((DT_VIEW_STAR_5 : Int) : ℚ) - 1 + 1.5) * (2.5 * r1))) =
            (-2) * (2.5 * r1) := by
          norm_num [DT_VIEW_STAR_5]
          ring
        rw [h1, sub_self]
        exact star_miss r1 hr1 (-2) (by norm_num))]
      norm_num [DT_VIEW_STAR_1, DT_VIEW_STAR_5]

/-- C8 (witness): dpi factor 2/5 and width 88 give `r1 = 4` exactly, so
the star-3 center is the integer pointer (47, 36). -/
theorem star3_center_hover_witness :
    dt_view_process_image_over DT_VIEW_STAR_3 true 88 100 1
      (starGlyphX DT_VIEW_STAR_3 88 1 (overlayR1 (2/5) 88))
      (overlayRowY false 100 1 (overlayR1 (2/5) 88)) (2/5) false = true ∧
    (∀ s ∈ [DT_VIEW_STAR_1, DT_VIEW_STAR_2, DT_VIEW_STAR_4, DT_VIEW_STAR_5],
      dt_view_process_image_over s true 88 100 1
        (starGlyphX DT_VIEW_STAR_3 88 1 (overlayR1 (2/5) 88))
        (overlayRowY false 100 1 (overlayR1 (2/5) 88)) (2/5) false = false) :=
  star3_center_hover (2/5) 88 100 (by norm_num) (by norm_num) false

/-! ### The `strcmp` order -/

/-- `strcmp` is antisymmetric in sign. -/
theorem strcmpChars_flip : ∀ a b : List Char, strcmpChars b a = - strcmpChars a b
  | [], [] => rfl
  | [], _ :: _ => rfl
  | _ :: _, [] => rfl
  | a :: as, b :: bs => by
    simp only [strcmpChars]
    rcases lt_trichotomy a.toNat b.toNat with h | h | h
    · rw [if_neg (by omega), if_pos h, if_pos h]
      norm_num
    · rw [if_neg (by omega), if_neg (by omega), if_neg (by omega), if_neg (by omega)]
      exact strcmpChars_flip as bs
    · rw [if_pos h, if_neg (by omega), if_pos h]

/-- `strcmp` vanishes exactly on equal strings. -/
theorem strcmpChars_eq_zero_iff : ∀ a b : List Char, strcmpChars a b = 0 ↔ a = b
  | [], [] => by simp [strcmpChars]
  | [], _ :: _ => by simp [strcmpChars]
  | _ :: _, [] => by simp [strcmpChars]
  | a :: as, b :: bs => by
    simp only [strcmpChars]
    rcases lt_trichotomy a.toNat b.toNat with h | h | h
    · rw [if_pos h]
      constructor
      · intro hc
        exact absurd hc (by norm_num)
      · intro hc
        injection hc with h1 _
        subst h1
        omega
    · have hab : a = b := by
        apply Char.eq_of_val_eq
        apply UInt32.toNat.inj
        exact h
      rw [if_neg (by omega), if_neg (by omega)]
      rw [strcmpChars_eq_zero_iff as bs]
      subst hab
      simp
    · rw [if_neg (by omega), if_pos h]
      constructor
      · intro hc
        exact absurd hc (by norm_num)
      · intro hc
        injection hc with h1 _
        subst h1
        omega

/-- The strict `strcmp` order is transitive. -/
theorem strcmpChars_lt_trans : ∀ a b c : List Char,
    strcmpChars a b < 0 → strcmpChars b c < 0 → strcmpChars a c < 0
  | [], [], _ => by
    intro h1 _
    exact absurd h1 (by simp [strcmpChars])
  | [], _ :: _, [] => by
    intro _ h2
    exact absurd h2 (by simp [strcmpChars])
  | [], _ :: _, _ :: _ => by
    intro _ _
    simp [strcmpChars]
  | _ :: _, [], _ => by
    intro h1 _
    exact absurd h1 (by simp [strcmpChars])
  | _ :: _, _ :: _, [] => by
    intro _ h2
    exact absurd h2 (by simp [strcmpChars])
  | a :: as, b :: bs, c :: cs => by
    intro h1 h2
    simp only [strcmpChars] at h1 h2 ⊢
    split_ifs at h1 with hab hba
    · split_ifs at h2 with hbc hcb
      · rw [if_pos (by omega)]
        norm_num
      · norm_num at h2
      · rw [if_pos (by omega)]
        norm_num
    · norm_num at h1
    · split_ifs at h2 with hbc hcb
      · rw [if_pos (by omega)]
        norm_num
      · norm_num at h2
      · rw [if_neg (by omega), if_neg (by omega)]
        exact strcmpChars_lt_trans as bs cs h1 h2

/-- The non-strict `strcmp` order is transitive. -/
theorem strcmpChars_le_trans (a b c : List Char)
    (h1 : strcmpChars a b ≤ 0) (h2 : strcmpChars b c ≤ 0) : strcmpChars a c ≤ 0 := by
  rcases lt_or_eq_of_le h1 with h1' | h1'
  · rcases lt_or_eq_of_le h2 with h2' | h2'
    · exact le_of_lt (strcmpChars_lt_trans a b c h1' h2')
    · have : b = c := (strcmpChars_eq_zero_iff b c).1 h2'
      subst this
      exact le_of_lt h1'
  · have : a = b := (strcmpChars_eq_zero_iff a b).1 h1'
    subst this
    exact h2

/-- The comparator is antisymmetric in sign. -/
theorem sort_views_flip (a b : ViewEntry) : sort_views b a = - sort_views a b := by
  unfold sort_views
  dsimp only
  by_cases h : viewPos a - viewPos b = 0
  · rw [if_neg (by omega), if_neg (by omega)]
    exact strcmpChars_flip a.name.data b.name.data
  · rw [if_pos (by omega), if_pos (by omega)]
    omega

/-- Characterization of the comparator's non-strict order: lexicographic
on (priority position, display name). -/
theorem sort_views_le_iff (a b : ViewEntry) :
    sort_views a b ≤ 0 ↔
      (viewPos a < viewPos b ∨
       (viewPos a = viewPos b ∧ strcmp a.name b.name ≤ 0)) := by
  unfold sort_views
  dsimp only
  by_cases h : viewPos a - viewPos b = 0
  · rw [if_neg (by omega)]
    omega
  · rw [if_pos (by omega)]
    omega

/-- Characterization of the comparator's strict order. -/
theorem sort_views_lt_iff (a b : ViewEntry) :
    sort_views a b < 0 ↔
      (viewPos a < viewPos b ∨
       (viewPos a = viewPos b ∧ strcmp a.name b.name < 0)) := by
  unfold sort_views
  dsimp only
  by_cases h : viewPos a - viewPos b = 0
  · rw [if_neg (by omega)]
    omega
  · rw [if_pos (by omega)]
    omega

/-- The comparator vanishes exactly on equal keys. -/
theorem sort_views_eq_zero_iff (a b : ViewEntry) :
    sort_views a b = 0 ↔ (viewPos a = viewPos b ∧ strcmp a.name b.name = 0) := by
  unfold sort_views
  dsimp only
  by_cases h : viewPos a - viewPos b = 0
  · rw [if_neg (by omega)]
    omega
  · rw [if_pos (by omega)]
    omega

instance : IsTotal ViewEntry viewLe :=
  ⟨fun a b => by
    unfold viewLe
    have := sort_views_flip a b
    omega⟩

instance : IsTrans ViewEntry viewLe :=
  ⟨fun a b c hab hbc => by
    unfold viewLe at *
    rw [sort_views_le_iff] at hab hbc ⊢
    rcases hab with h1 | ⟨h1, h1'⟩
    · rcases hbc with h2 | ⟨h2, _⟩
      · exact Or.inl (lt_trans h1 h2)
      · exact Or.inl (h2 ▸ h1)
    · rcases hbc with h2 | ⟨h2, h2'⟩
      · exact Or.inl (h1 ▸ h2)
      · exact Or.inr ⟨h1.trans h2, strcmpChars_le_trans _ _ _ h1' h2'⟩⟩

instance : IsAntisymm ViewEntry viewLt :=
  ⟨fun a b h1 h2 => by
    exfalso
    unfold viewLt at h1 h2
    have := sort_views_flip a b
    omega⟩

instance : IsTotal ViewEntry nameLe :=
  ⟨fun a b => by
    unfold nameLe strcmp
    have := strcmpChars_flip a.name.data b.name.data
    omega⟩

instance : IsTrans ViewEntry nameLe :=
  ⟨fun _ _ _ hab hbc => strcmpChars_le_trans _ _ _ hab hbc⟩

/-- A list sorted under the comparator's non-strict order, whose keys are
pairwise distinct, is sorted under the strict order. -/
theorem sorted_le_strict {l : List ViewEntry} (hs : l.Sorted viewLe)
    (hd : l.Pairwise fun a b => sort_views a b ≠ 0) : l.Sorted viewLt := by
  have := hs.and hd
  exact this.imp fun {a b} h => by
    have h1 : viewLe a b := h.1
    have h2 : sort_views a b ≠ 0 := h.2
    unfold viewLe at h1
    unfold viewLt
    omega

/-- Distinct keys transfer along permutations. -/
theorem distinct_keys_perm {l l' : List ViewEntry} (h : l.Perm l')
    (hd : l.Pairwise fun a b => sort_views a b ≠ 0) :
    l'.Pairwise fun a b => sort_views a b ≠ 0 := by
  refine (List.Perm.pairwise_iff ?_ h).1 hd
  intro x y hxy
  have := sort_views_flip x y
  omega

/-- A list with at most one element is vacuously pairwise-related. -/
theorem pairwise_of_length_le_one {α : Type} {r : α → α → Prop} {l : List α}
    (h : l.length ≤ 1) : l.Pairwise r := by
  match l with
  | [] => exact List.Pairwise.nil
  | [x] => exact List.pairwise_singleton r x
  | x :: y :: t => simp at h

/-- The spec-side registry order is a permutation of the load list. -/
theorem registrySpecOrder_perm (l : List ViewEntry) : (registrySpecOrder l).Perm l := by
  unfold registrySpecOrder
  have hQ : (l.filter fun v => !(v.module_name == "lighttable")).filter
      (fun v => v.module_name == "darkroom") =
      l.filter (fun v => v.module_name == "darkroom") := by
    rw [List.filter_filter]
    apply List.filter_congr
    intro v _
    by_cases h : v.module_name = "darkroom"
    · simp [h]
    · simp [h]
  have hR : (l.filter fun v => !(v.module_name == "lighttable")).filter
      (fun v => !(v.module_name == "darkroom")) =
      l.filter (fun v => viewPos v == 2) := by
    rw [List.filter_filter]
    apply List.filter_congr
    intro v _
    unfold viewPos
    by_cases h1 : v.module_name = "lighttable"
    · simp [h1]
    · by_cases h2 : v.module_name = "darkroom"
      · simp [h1, h2]
      · simp [h1, h2]
  rw [List.append_assoc]
  refine List.Perm.trans
    (((List.perm_insertionSort nameLe _).append_left _).append_left _) ?_
  rw [← hQ, ← hR]
  refine List.Perm.trans ((List.filter_append_perm _ _).append_left _) ?_
  exact List.filter_append_perm _ l

/-- Membership facts: positions of the three spec-order segments. -/
theorem viewPos_of_mem_filter_light {l : List ViewEntry} {x : ViewEntry}
    (hx : x ∈ l.filter fun v => v.module_name == "lighttable") : viewPos x = 0 := by
  have := (List.mem_filter.1 hx).2
  simp only [beq_iff_eq] at this
  unfold viewPos
  rw [if_pos this]

/-- Membership in the darkroom segment forces priority position 1. -/
theorem viewPos_of_mem_filter_dark {l : List ViewEntry} {x : ViewEntry}
    (hx : x ∈ l.filter fun v => v.module_name == "darkroom") : viewPos x = 1 := by
  have := (List.mem_filter.1 hx).2
  simp only [beq_iff_eq] at this
  unfold viewPos
  rw [if_neg (by rw [this]; decide), if_pos this]

/-- Membership in the unlisted segment forces priority position 2. -/
theorem viewPos_of_mem_filter_rest {l : List ViewEntry} {x : ViewEntry}
    (hx : x ∈ l.filter fun v => viewPos v == 2) : viewPos x = 2 := by
  have := (List.mem_filter.1 hx).2
  simpa using this

/-- The spec-side registry order is strictly sorted under the comparator
order, given pairwise-distinct keys and at most one view per listed
name. -/
theorem registrySpecOrder_sorted (l : List ViewEntry)
    (hkeys : l.Pairwise fun a b => sort_views a b ≠ 0)
    (hlt : (l.filter fun v => v.module_name == "lighttable").length ≤ 1)
    (hdk : (l.filter fun v => v.module_name == "darkroom").length ≤ 1) :
    (registrySpecOrder l).Sorted viewLt := by
  unfold registrySpecOrder List.Sorted
  rw [List.pairwise_append, List.pairwise_append]
  have hd3 : (List.insertionSort nameLe (l.filter fun v => viewPos v == 2)).Pairwise
      fun a b => sort_views a b ≠ 0 := by
    apply distinct_keys_perm (List.perm_insertionSort nameLe _).symm
    exact hkeys.sublist (List.filter_sublist l)
  refine ⟨⟨pairwise_of_length_le_one hlt, pairwise_of_length_le_one hdk, ?_⟩, ?_, ?_⟩
  · intro a ha b hb
    rw [viewLt, sort_views_lt_iff]
    exact Or.inl (by rw [viewPos_of_mem_filter_light ha, viewPos_of_mem_filter_dark hb]; norm_num)
  · have hs : (List.insertionSort nameLe (l.filter fun v => viewPos v == 2)).Sorted nameLe :=
      List.sorted_insertionSort nameLe _
    refine (hs.and hd3).imp_of_mem ?_
    intro a b ha hb h
    have ha2 : viewPos a = 2 := viewPos_of_mem_filter_rest (by
      exact (List.mem_insertionSort nameLe).1 ha)
    have hb2 : viewPos b = 2 := viewPos_of_mem_filter_rest (by
      exact (List.mem_insertionSort nameLe).1 hb)
    have hposeq : viewPos a = viewPos b := by omega
    rw [viewLt, sort_views_lt_iff]
    refine Or.inr ⟨hposeq, ?_⟩
    have hne : strcmp a.name b.name ≠ 0 := by
      intro h0
      exact h.2 ((sort_views_eq_zero_iff a b).2 ⟨hposeq, h0⟩)
    have hle : strcmp a.name b.name ≤ 0 := h.1
    omega
  · intro a ha b hb
    have hb2 : viewPos b = 2 := viewPos_of_mem_filter_rest
      ((List.mem_insertionSort nameLe).1 hb)
    rw [viewLt, sort_views_lt_iff]
    rcases List.mem_append.1 ha with h | h
    · exact Or.inl (by rw [viewPos_of_mem_filter_light h, hb2]; norm_num)
    · exact Or.inl (by rw [viewPos_of_mem_filter_dark h, hb2]; norm_num)

/-- C5: for every load list with pairwise-distinct sort keys and at most
one view per hard-coded name, the registry order equals: the views named
in the fixed priority list first, in its declared order, then all other
views sorted by case-sensitive comparison of their display names; and
the registry order does not depend on the load (enumeration) order. -/
theorem view_registry_ordering (l : List ViewEntry)
    (hkeys : l.Pairwise fun a b => sort_views a b ≠ 0)
    (hlt : (l.filter fun v => v.module_name == "lighttable").length ≤ 1)
    (hdk : (l.filter fun v => v.module_name == "darkroom").length ≤ 1) :
    dt_view_registry_order l = registrySpecOrder l ∧
    ∀ l', l'.Perm l → dt_view_registry_order l' = dt_view_registry_order l := by
  have hsorted : (dt_view_registry_order l).Sorted viewLt :=
    sorted_le_strict (List.sorted_insertionSort viewLe l)
      (distinct_keys_perm (List.perm_insertionSort viewLe l).symm hkeys)
  constructor
  · exact List.eq_of_perm_of_sorted
      ((List.perm_insertionSort viewLe l).trans (registrySpecOrder_perm l).symm)
      hsorted (registrySpecOrder_sorted l hkeys hlt hdk)
  · intro l' hperm
    have hk' : l'.Pairwise fun a b => sort_views a b ≠ 0 :=
      distinct_keys_perm hperm.symm hkeys
    exact List.eq_of_perm_of_sorted
      ((List.perm_insertionSort viewLe l').trans
        (hperm.trans (List.perm_insertionSort viewLe l).symm))
      (sorted_le_strict (List.sorted_insertionSort viewLe l')
        (distinct_keys_perm (List.perm_insertionSort viewLe l').symm hk'))
      hsorted

/-- C5 (witness): four views loaded in scrambled order sort to
lighttable, darkroom, then the rest alphabetically, independent of a
reshuffled load order. -/
theorem view_registry_ordering_witness :
    dt_view_registry_order
        [⟨"map", "Map"⟩, ⟨"darkroom", "Darkroom"⟩,
         ⟨"lighttable", "Lighttable"⟩, ⟨"print", "Print"⟩] =
      registrySpecOrder
        [⟨"map", "Map"⟩, ⟨"darkroom", "Darkroom"⟩,
         ⟨"lighttable", "Lighttable"⟩, ⟨"print", "Print"⟩] ∧
    dt_view_registry_order
        [⟨"print", "Print"⟩, ⟨"lighttable", "Lighttable"⟩,
         ⟨"darkroom", "Darkroom"⟩, ⟨"map", "Map"⟩] =
      dt_view_registry_order
        [⟨"map", "Map"⟩, ⟨"darkroom", "Darkroom"⟩,
         ⟨"lighttable", "Lighttable"⟩, ⟨"print", "Print"⟩] :=
  ⟨(view_registry_ordering
      [⟨"map", "Map"⟩, ⟨"darkroom", "Darkroom"⟩,
       ⟨"lighttable", "Lighttable"⟩, ⟨"print", "Print"⟩]
      (by decide) (by decide) (by decide)).1,
   (view_registry_ordering
      [⟨"map", "Map"⟩, ⟨"darkroom", "Darkroom"⟩,
       ⟨"lighttable", "Lighttable"⟩, ⟨"print", "Print"⟩]
      (by decide) (by decide) (by decide)).2
     [⟨"print", "Print"⟩, ⟨"lighttable", "Lighttable"⟩,
      ⟨"darkroom", "Darkroom"⟩, ⟨"map", "Map"⟩]
     (by decide)⟩

end DTView
